import Mathlib

/- Verification of the astrbot QQ-group daily-analysis pipeline.
   Shallow embedding of: the paginated message fetcher and its final cleanup
   (src/src/core/message_handler.py and the legacy fetcher in src/main.py),
   the statistics aggregator, the LLM retry / provider-fallback utilities
   (src/src/analysis/utils/llm_utils.py), the response-parsing stages of
   src/src/analysis/llm_analyzer.py, and the daily scheduler
   (src/src/scheduler/auto_scheduler.py).  Python dicts keep insertion order,
   so dict-shaped accumulators are embedded as insertion-ordered association
   lists.  Timestamps are integers (seconds); datetime.fromtimestamp is
   order-preserving, so window comparisons are done on the raw integers. -/

/-- Token usage counters (data_models.py, class TokenUsage; every field
defaults to 0). -/
structure TokenUsage where
  prompt_tokens : Nat
  completion_tokens : Nat
  total_tokens : Nat
  deriving DecidableEq

/-- TokenUsage() with the dataclass defaults. -/
def TokenUsage.zero : TokenUsage := ⟨0, 0, 0⟩

/-- A memorable quote (data_models.py, class GoldenQuote). -/
structure GoldenQuote where
  content : String
  sender : String
  reason : String
  deriving DecidableEq

/-- A discussion topic (data_models.py, class SummaryTopic). -/
structure SummaryTopic where
  topic : String
  contributors : List String
  detail : String
  deriving DecidableEq

/-- One typed content part of a chat message, flattening the dict accesses the
code performs: content["type"], data.text, data.id, data.emoji_id, data.p,
data.summary, data.file, and whether "emoji" occurs in str(data).lower()
(used by the record/video branch of calculate_statistics). -/
structure MsgContent where
  ctype : String
  ctext : String
  faceId : String
  emojiId : String
  pField : String
  summary : String
  fileName : String
  dataHasEmoji : Bool
  deriving DecidableEq

/-- A raw history message as consumed by the fetcher and the aggregator:
msg["time"] (integer seconds), msg["sender"]["user_id"] (stringified),
msg["message_id"], and the typed content parts msg["message"]. -/
structure RawMsg where
  mtime : Int
  senderId : String
  messageId : Int
  contents : List MsgContent
  deriving DecidableEq

/-- Modelled from the spec: class EmojiStatistics is imported by
message_handler.py from data_models.py but is absent from src/; spec section
4.2 describes "categorized counts across several sticker/emoji content-part
subtypes" (basic face, animated/"magic" face, "super" face, small face, and
animated-sticker images).  The counters and the detail table are exactly the
fields message_handler.py mutates. -/
structure EmojiStatistics where
  face_count : Nat
  mface_count : Nat
  bface_count : Nat
  sface_count : Nat
  other_emoji_count : Nat
  face_details : List (String × Nat)
  deriving DecidableEq

/-- EmojiStatistics() with all counters at zero and an empty detail table. -/
def EmojiStatistics.zero : EmojiStatistics := ⟨0, 0, 0, 0, 0, []⟩

/-- Modelled from the spec: the total_emoji_count property of EmojiStatistics
is absent from src/ (message_handler.py line 286 reads it); modelled as the
sum of the category counters. -/
def EmojiStatistics.total_emoji_count (e : EmojiStatistics) : Nat :=
  e.face_count + e.mface_count + e.bface_count + e.sface_count + e.other_emoji_count

/-- Modelled from the spec: the activity-visualization payload produced by the
visualization collaborator (src/src/visualization is absent from src/ and out
of the spec's core scope); modelled as an abstract token. -/
structure ActivityVisualization where
  tag : Unit

/-- Group statistics as defined in src/src/models/data_models.py (also
duplicated in main.py): the plain dataclass without emoji_statistics or
activity_visualization fields, used by main._calculate_statistics. -/
structure GroupStatistics where
  message_count : Nat
  total_characters : Nat
  participant_count : Nat
  most_active_period : String
  golden_quotes : List GoldenQuote
  emoji_count : Nat
  token_usage : TokenUsage
  deriving DecidableEq

/-- Group statistics as constructed by MessageHandler.calculate_statistics
(message_handler.py lines 280-290), which passes the two extra fields
emoji_statistics and activity_visualization missing from the data_models.py
under src/ (modelled from the spec, see EmojiStatistics above). -/
structure GroupStatisticsMH where
  message_count : Nat
  total_characters : Nat
  participant_count : Nat
  most_active_period : String
  golden_quotes : List GoldenQuote
  emoji_count : Nat
  emoji_statistics : EmojiStatistics
  activity_visualization : ActivityVisualization
  token_usage : TokenUsage

/-- Hour of day of a timestamp; datetime.fromtimestamp(t).hour for an epoch
timestamp t in seconds (embedded in UTC: the hour is t / 3600 mod 24). -/
def hourOf (t : Int) : Nat := ((t / 3600) % 24).toNat

/-- Increment key k in an insertion-ordered association list, appending a new
entry when the key is absent: Python's dict[k] += 1 on a defaultdict(int) /
dict.get(k, 0) + 1 pattern (dicts iterate in insertion order). -/
def bumpAssoc {α : Type} [DecidableEq α] (k : α) : List (α × Nat) → List (α × Nat)
  | [] => [(k, 1)]
  | (k₀, c) :: rest =>
      if k₀ = k then (k₀, c + 1) :: rest else (k₀, c) :: bumpAssoc k rest

/-- The per-hour message histogram hour_counts of calculate_statistics
(message_handler.py line 221/230, main.py line 727/736), as the
insertion-ordered association list a Python dict iterates as. -/
def hourCounts (msgs : List RawMsg) : List (Nat × Nat) :=
  msgs.foldl (fun acc m => bumpAssoc (hourOf m.mtime) acc) []

/-- Python's max(items, key=lambda x: x[1]): scans left to right keeping the
current maximum and replacing it only on a strictly larger key, so the first
item with the maximal count wins. -/
def pyMaxSnd : List (Nat × Nat) → Option (Nat × Nat)
  | [] => none
  | x :: xs => some (xs.foldl (fun cur y => if cur.2 < y.2 then y else cur) x)

/-- f-string 02d zero padding for an hour value. -/
def pad2 (n : Nat) : String := if n < 10 then "0" ++ toString n else toString n

/-- The most_active_period f-string of calculate_statistics (message_handler.py
line 275, main.py line 745). -/
def hourPeriod (h : Nat) : String :=
  pad2 h ++ ":00-" ++ pad2 ((h + 1) % 24) ++ ":00"

/-- most_active_hour (message_handler.py line 274, main.py line 744):
max(hour_counts.items(), key=lambda x: x[1])[0] if hour_counts else 0. -/
def mostActiveHour (msgs : List RawMsg) : Nat :=
  match pyMaxSnd (hourCounts msgs) with
  | some p => p.1
  | none => 0

/-- The participants set of calculate_statistics, as the insertion-ordered
list of distinct sender ids (only its size is ever read). -/
def participantsOf (msgs : List RawMsg) : List String :=
  msgs.foldl (fun acc m => if acc.contains m.senderId then acc else acc ++ [m.senderId]) []

/-- Whether needle occurs as a contiguous substring of the character list,
checking each position from the left (Python's `in` on str). -/
def hasSubList (needle : List Char) : List Char → Bool
  | [] => decide (needle = [])
  | c :: rest =>
      decide (needle = (c :: rest).take needle.length) || hasSubList needle rest

/-- Python's `needle in hay` on strings. -/
def strHasSub (hay needle : String) : Bool := hasSubList needle.data hay.data

/-- The per-content-part elif chain of MessageHandler.calculate_statistics
(message_handler.py lines 233-271), threading (total_chars, emoji_statistics).
The image branch counts a part as an animated sticker when its summary
mentions 动画表情 or 表情; record/video parts count as other emoji when their
data mentions "emoji". -/
def contentStep (acc : Nat × EmojiStatistics) (c : MsgContent) : Nat × EmojiStatistics :=
  let chars := acc.1
  let e := acc.2
  if c.ctype = "text" then
    (chars + c.ctext.length, e)
  else if c.ctype = "face" then
    (chars, ⟨e.face_count + 1, e.mface_count, e.bface_count, e.sface_count,
             e.other_emoji_count, bumpAssoc ("face_" ++ c.faceId) e.face_details⟩)
  else if c.ctype = "mface" then
    (chars, ⟨e.face_count, e.mface_count + 1, e.bface_count, e.sface_count,
             e.other_emoji_count, bumpAssoc ("mface_" ++ c.emojiId) e.face_details⟩)
  else if c.ctype = "bface" then
    (chars, ⟨e.face_count, e.mface_count, e.bface_count + 1, e.sface_count,
             e.other_emoji_count, bumpAssoc ("bface_" ++ c.pField) e.face_details⟩)
  else if c.ctype = "sface" then
    (chars, ⟨e.face_count, e.mface_count, e.bface_count, e.sface_count + 1,
             e.other_emoji_count, bumpAssoc ("sface_" ++ c.faceId) e.face_details⟩)
  else if c.ctype = "image" then
    if strHasSub c.summary "动画表情" || strHasSub c.summary "表情" then
      (chars, ⟨e.face_count, e.mface_count + 1, e.bface_count, e.sface_count,
               e.other_emoji_count, bumpAssoc ("animated_" ++ c.fileName) e.face_details⟩)
    else
      (chars, e)
  else if (c.ctype = "record" || c.ctype = "video") && c.dataHasEmoji then
    (chars, ⟨e.face_count, e.mface_count, e.bface_count, e.sface_count,
             e.other_emoji_count + 1, e.face_details⟩)
  else
    (chars, e)

/-- total_chars and emoji_statistics accumulated over every content part of
every message (message_handler.py lines 224-271). -/
def contentStats (msgs : List RawMsg) : Nat × EmojiStatistics :=
  msgs.foldl (fun acc m => m.contents.foldl contentStep acc) (0, EmojiStatistics.zero)

/-- MessageHandler.calculate_statistics (message_handler.py lines 217-290).
The activity visualizer lives outside src/, so its output is a parameter. -/
def calculate_statistics (activityViz : List RawMsg → ActivityVisualization)
    (msgs : List RawMsg) : GroupStatisticsMH :=
  let cs := contentStats msgs
  ⟨msgs.length, cs.1, (participantsOf msgs).length,
   hourPeriod (mostActiveHour msgs), [], cs.2.total_emoji_count, cs.2,
   activityViz msgs, TokenUsage.zero⟩

/-- The per-content loop of main._calculate_statistics (main.py lines
728-740): only text lengths and plain "face" parts are counted. -/
def contentStepMain (acc : Nat × Nat) (c : MsgContent) : Nat × Nat :=
  if c.ctype = "text" then (acc.1 + c.ctext.length, acc.2)
  else if c.ctype = "face" then (acc.1, acc.2 + 1)
  else acc

/-- QQGroupDailyAnalysis._calculate_statistics (main.py lines 721-756). -/
def calculate_statistics_main (msgs : List RawMsg) : GroupStatistics :=
  let cs := msgs.foldl (fun acc m => m.contents.foldl contentStepMain acc) (0, 0)
  ⟨msgs.length, cs.1, (participantsOf msgs).length,
   hourPeriod (mostActiveHour msgs), [], cs.2, TokenUsage.zero⟩

/-- One answer of the get_group_msg_history API for one call: the call may
raise, return a result without a usable "messages" list, or return a page. -/
inductive ApiResp where
  | raises
  | invalid
  | page (msgs : List RawMsg)
  deriving DecidableEq

/-- Externally visible events of one fetch run: each API call (numbered in
call order) and the cooperative pauses.  rateSleep is the asyncio.sleep(0.5)
issued every 5 successful rounds; failSleep is the asyncio.sleep(1) of
main.py's failure path (message_handler.py's corresponding sleep sits in an
outer except-block that well-formed messages never reach). -/
inductive FetchEvent where
  | apiCall (idx : Nat)
  | rateSleep
  | failSleep
  deriving DecidableEq

/-- Loop state of a fetch run: accumulated messages, the pagination cursor
message_seq, query_rounds, consecutive_failures, the number of API calls made
so far, and the event trace. -/
structure FetchState where
  msgs : List RawMsg
  seq : Int
  rounds : Nat
  fails : Nat
  calls : Nat
  events : List FetchEvent
  deriving DecidableEq

/-- max_failures = 3 (message_handler.py line 71, main.py line 587). -/
def maxFailures : Nat := 3

/-- The per-page filtering loop of MessageHandler.fetch_group_messages
(message_handler.py lines 134-158): a message older than start sets
has_out_of_range_message and is skipped; bot messages are skipped; messages
inside [startT, endT] are kept in order.  Returns
(kept messages, valid_messages_in_round, has_out_of_range_message);
oldest_msg_time is only logged and is not modelled. -/
def pageScan (startT endT : Int) (shouldFilter : String → Bool) :
    List RawMsg → List RawMsg × Nat × Bool
  | [] => ([], 0, false)
  | m :: rest =>
    if m.mtime < startT then
      let r := pageScan startT endT shouldFilter rest
      (r.1, r.2.1, true)
    else if shouldFilter m.senderId then
      pageScan startT endT shouldFilter rest
    else if startT ≤ m.mtime ∧ m.mtime ≤ endT then
      let r := pageScan startT endT shouldFilter rest
      (m :: r.1, r.2.1 + 1, r.2.2)
    else
      pageScan startT endT shouldFilter rest

/-- The pagination loop of MessageHandler.fetch_group_messages
(message_handler.py lines 76-188).  api gives the outcome of the n-th API
call; hasCallAction is hasattr(bot_instance, "call_action") — when false the
api / unknown-type branches return [] at once (lines 104-111).  The Bool
result is true exactly on the in-loop `return []` paths.  fuel bounds the
iterations; the theorems below hold for every fuel, and Python's run is one
particular adequate fuel. -/
def fetchGo (api : Nat → ApiResp) (hasCallAction : Bool) (startT endT : Int)
    (shouldFilter : String → Bool) (maxRounds maxMessages : Nat) :
    Nat → FetchState → FetchState × Bool
  | 0, st => (st, false)
  | fuel + 1, st =>
    if st.rounds < maxRounds then
      if hasCallAction then
        let st1 : FetchState :=
          ⟨st.msgs, st.seq, st.rounds, st.fails, st.calls + 1,
           st.events ++ [FetchEvent.apiCall st.calls]⟩
        match api st.calls with
        | ApiResp.raises =>
          if st1.rounds = 0 then
            (st1, true)
          else if st1.fails + 1 ≥ maxFailures then
            (⟨st1.msgs, st1.seq, st1.rounds, st1.fails + 1, st1.calls, st1.events⟩, false)
          else
            fetchGo api hasCallAction startT endT shouldFilter maxRounds maxMessages fuel
              ⟨st1.msgs, st1.seq, st1.rounds, st1.fails + 1, st1.calls, st1.events⟩
        | ApiResp.invalid =>
          if st1.fails + 1 ≥ maxFailures then
            (⟨st1.msgs, st1.seq, st1.rounds, st1.fails + 1, st1.calls, st1.events⟩, false)
          else
            fetchGo api hasCallAction startT endT shouldFilter maxRounds maxMessages fuel
              ⟨st1.msgs, st1.seq, st1.rounds, st1.fails + 1, st1.calls, st1.events⟩
        | ApiResp.page [] => (st1, false)
        | ApiResp.page (first :: restPage) =>
          let scan := pageScan startT endT shouldFilter (first :: restPage)
          let newMsgs := st1.msgs ++ scan.1
          if scan.2.2 then
            (⟨newMsgs, st1.seq, st1.rounds, 0, st1.calls, st1.events⟩, false)
          else if scan.2.1 = 0 then
            (⟨newMsgs, st1.seq, st1.rounds, 0, st1.calls, st1.events⟩, false)
          else if maxMessages ≤ newMsgs.length then
            (⟨newMsgs, st1.seq, st1.rounds, 0, st1.calls, st1.events⟩, false)
          else
            let rounds1 := st1.rounds + 1
            let ev1 := if rounds1 % 5 = 0 then st1.events ++ [FetchEvent.rateSleep]
                       else st1.events
            fetchGo api hasCallAction startT endT shouldFilter maxRounds maxMessages fuel
              ⟨newMsgs, first.messageId, rounds1, 0, st1.calls, ev1⟩
      else (st, true)
    else (st, false)

/-- The final cleanup of fetch_group_messages (message_handler.py lines
190-208): strict window re-filter, then truncation to max_messages. -/
def finalCleanup (startT endT : Int) (maxMessages : Nat) (msgs : List RawMsg) :
    List RawMsg :=
  let filtered := msgs.filter (fun m => decide (startT ≤ m.mtime) && decide (m.mtime ≤ endT))
  if maxMessages < filtered.length then filtered.take maxMessages else filtered

/-- Fuel that dominates any possible number of loop iterations (each
iteration increments query_rounds or consecutive_failures, the latter
resetting on success and capped at maxFailures). -/
def fetchFuel (maxRounds : Nat) : Nat :=
  maxRounds * maxFailures + maxRounds + maxFailures + 1

/-- MessageHandler.fetch_group_messages (message_handler.py lines 46-215).
paramsValid is the `if not group_id or not bot_instance` guard (line 50);
endT is datetime.now() at entry and startT is endT - timedelta(days=days).
Returns the message list together with the final loop state (its trace). -/
def fetch_group_messages (api : Nat → ApiResp) (hasCallAction paramsValid : Bool)
    (now : Int) (days : Nat) (shouldFilter : String → Bool)
    (maxRounds maxMessages : Nat) : List RawMsg × FetchState :=
  let endT := now
  let startT := now - 86400 * (days : Int)
  let init : FetchState := ⟨[], 0, 0, 0, 0, []⟩
  if paramsValid then
    let r := fetchGo api hasCallAction startT endT shouldFilter maxRounds maxMessages
               (fetchFuel maxRounds) init
    if r.2 then ([], r.1) else (finalCleanup startT endT maxMessages r.1.msgs, r.1)
  else ([], init)

/-- The per-page loop of main._fetch_group_messages_unified (main.py lines
622-640).  oldest_msg_time is assigned unconditionally for every message
(`oldest_msg_time = msg_time`), so after the loop it holds the time of the
LAST message iterated — although the adjacent comment says it records the
oldest.  Bot filtering compares the sender to the single configured bot id.
Returns (kept messages, valid_messages_in_round, oldest_msg_time). -/
def pageScanMain (startT endT : Int) (botQQ : Option String) :
    List RawMsg → List RawMsg × Nat × Option Int
  | [] => ([], 0, none)
  | m :: rest =>
    let r := pageScanMain startT endT botQQ rest
    let oldest := match r.2.2 with
                  | none => some m.mtime
                  | some t => some t
    if botQQ = some m.senderId then
      (r.1, r.2.1, oldest)
    else if startT ≤ m.mtime ∧ m.mtime ≤ endT then
      (m :: r.1, r.2.1 + 1, oldest)
    else
      (r.1, r.2.1, oldest)

/-- The pagination loop of main._fetch_group_messages_unified (main.py lines
592-665): the loop also stops once len(messages) ≥ max_messages in its
while-condition, an API exception sleeps 1s and counts into the failure
budget with no first-round special case, the halt test is
`oldest_msg_time and oldest_msg_time < start_time`, and there is no final
re-filter or truncation. -/
def mainFetchGo (api : Nat → ApiResp) (startT endT : Int) (botQQ : Option String)
    (maxRounds maxMessages : Nat) : Nat → FetchState → FetchState
  | 0, st => st
  | fuel + 1, st =>
    if st.msgs.length < maxMessages ∧ st.rounds < maxRounds then
      let st1 : FetchState :=
        ⟨st.msgs, st.seq, st.rounds, st.fails, st.calls + 1,
         st.events ++ [FetchEvent.apiCall st.calls]⟩
      match api st.calls with
      | ApiResp.raises =>
        if st1.fails + 1 ≥ maxFailures then
          ⟨st1.msgs, st1.seq, st1.rounds, st1.fails + 1, st1.calls, st1.events⟩
        else
          mainFetchGo api startT endT botQQ maxRounds maxMessages fuel
            ⟨st1.msgs, st1.seq, st1.rounds, st1.fails + 1, st1.calls,
             st1.events ++ [FetchEvent.failSleep]⟩
      | ApiResp.invalid =>
        if st1.fails + 1 ≥ maxFailures then
          ⟨st1.msgs, st1.seq, st1.rounds, st1.fails + 1, st1.calls, st1.events⟩
        else
          mainFetchGo api startT endT botQQ maxRounds maxMessages fuel
            ⟨st1.msgs, st1.seq, st1.rounds, st1.fails + 1, st1.calls, st1.events⟩
      | ApiResp.page [] => st1
      | ApiResp.page (first :: restPage) =>
        let scan := pageScanMain startT endT botQQ (first :: restPage)
        let newMsgs := st1.msgs ++ scan.1
        if (match scan.2.2 with
            | some t => decide (t < startT)
            | none => false : Bool) then
          ⟨newMsgs, st1.seq, st1.rounds, 0, st1.calls, st1.events⟩
        else if scan.2.1 = 0 then
          ⟨newMsgs, st1.seq, st1.rounds, 0, st1.calls, st1.events⟩
        else
          let rounds1 := st1.rounds + 1
          let ev1 := if rounds1 % 5 = 0 then st1.events ++ [FetchEvent.rateSleep]
                     else st1.events
          mainFetchGo api startT endT botQQ maxRounds maxMessages fuel
            ⟨newMsgs, first.messageId, rounds1, 0, st1.calls, ev1⟩
    else st

/-- main._fetch_group_messages_unified (main.py lines 571-668): no final
cleanup; the accumulated list is returned as is. -/
def fetch_group_messages_unified (api : Nat → ApiResp) (paramsValid : Bool)
    (now : Int) (days : Nat) (botQQ : Option String)
    (maxRounds maxMessages : Nat) : List RawMsg × FetchState :=
  let endT := now
  let startT := now - 86400 * (days : Int)
  let init : FetchState := ⟨[], 0, 0, 0, 0, []⟩
  if paramsValid then
    let st := mainFetchGo api startT endT botQQ maxRounds maxMessages
                (fetchFuel maxRounds) init
    (st.msgs, st)
  else ([], init)

/-- Outcome of one provider.text_chat attempt under asyncio.wait_for: success
with a response, asyncio.TimeoutError, or any other exception (the two
except-branches of llm_utils.py lines 173-178). -/
inductive AttemptResult (R : Type) where
  | ok (r : R)
  | timeoutErr
  | exceptionErr
  deriving DecidableEq

/-- Whether the attempt landed in one of the two except-branches. -/
def AttemptResult.isFail {R : Type} : AttemptResult R → Bool
  | AttemptResult.ok _ => false
  | AttemptResult.timeoutErr => true
  | AttemptResult.exceptionErr => true

/-- The attempt loop of call_provider_with_retry (llm_utils.py lines 133-185):
`for attempt in range(1, retries + 1)`.  providerAt is the per-attempt result
of get_provider_with_fallback (None aborts with None at once, line 149-151);
promptOk is the `prompt and prompt.strip()` guard (lines 163-167); on a
timeout or exception the loop sleeps backoff * attempt_number before any next
attempt (line 180-181).  Returns the final value together with the ordered
list of backoff sleeps.  Structural recursion on the number of remaining
attempts; attempt is the 1-based attempt counter. -/
def retryAux (R : Type) (providerAt : Nat → Option Unit) (promptOk : Bool)
    (attemptOf : Nat → AttemptResult R) (retries : Nat) (backoff : ℚ) :
    Nat → Nat → Option R × List ℚ
  | 0, _ => (none, [])
  | left + 1, attempt =>
    match providerAt attempt with
    | none => (none, [])
    | some _ =>
      if promptOk then
        match attemptOf attempt with
        | AttemptResult.ok r => (some r, [])
        | AttemptResult.timeoutErr =>
          if attempt < retries then
            let r := retryAux R providerAt promptOk attemptOf retries backoff left (attempt + 1)
            (r.1, backoff * (attempt : ℚ) :: r.2)
          else (none, [])
        | AttemptResult.exceptionErr =>
          if attempt < retries then
            let r := retryAux R providerAt promptOk attemptOf retries backoff left (attempt + 1)
            (r.1, backoff * (attempt : ℚ) :: r.2)
          else (none, [])
      else (none, [])

/-- call_provider_with_retry (llm_utils.py lines 105-185; the identical loop
also lives in llm_analyzer.py lines 47-128): attempts 1..retries, returning
None after the last failure — no exception leaves the loop, both
except-branches only record and retry. -/
def call_provider_with_retry (R : Type) (providerAt : Nat → Option Unit)
    (promptOk : Bool) (attemptOf : Nat → AttemptResult R) (retries : Nat)
    (backoff : ℚ) : Option R × List ℚ :=
  retryAux R providerAt promptOk attemptOf retries backoff retries 1

/-- Python's str.strip() (whitespace from both ends), as a structurally
recursive char-list function so that concrete instances compute. -/
def pyStrip (s : String) : String :=
  String.mk (((s.data.dropWhile Char.isWhitespace).reverse.dropWhile
    Char.isWhitespace).reverse)

/-- Resolution of one configured provider id (llm_utils.py lines 36-60 and
62-73): the configured value must be a string whose strip() is non-empty, and
context.get_provider_by_id on the stripped id must neither raise nor return a
falsy provider — byId covers both (none = raised or falsy). -/
def resolveConfigured (P : Type) (cfgId : Option String) (byId : String → Option P) :
    Option P :=
  match cfgId with
  | some s => if pyStrip s = "" then none else byId (pyStrip s)
  | none => none

/-- get_provider_with_fallback (llm_utils.py lines 12-102): four tiers in
order — the task-specific configured id, the global llm_provider_id, the
session provider (get_using_provider, none on exception or falsy result),
and the first entry of get_all_providers. -/
def get_provider_with_fallback (P : Type) (specificId mainId : Option String)
    (byId : String → Option P) (sessionP : Option P) (allP : List P) : Option P :=
  match resolveConfigured P specificId byId with
  | some p => some p
  | none =>
    match resolveConfigured P mainId byId with
    | some p => some p
    | none =>
      match sessionP with
      | some p => some p
      | none =>
        match allP with
        | p :: _ => some p
        | [] => none

/-- The ordered-fallback contract in the spec's words (section 4.3): try the
tiers left to right and return the first one that resolves. -/
def specOrderedFallback (P : Type) : List (Option P) → Option P
  | [] => none
  | some p :: _ => some p
  | none :: rest => specOrderedFallback P rest

/-- Scheduler state owned by AutoScheduler: last_execution_date
(auto_scheduler.py line 23), as a calendar-date number. -/
structure SchedState where
  lastExecutionDate : Option Nat
  deriving DecidableEq

/-- Observable events of one wake of the scheduler loop: one analysis
execution per enabled channel, the assignment of last_execution_date, and
the 1-hour re-check sleep of the idempotency guard. -/
inductive SchedEvent where
  | execGroup (g : String)
  | setLastDate (d : Nat)
  | hourSleep
  deriving DecidableEq

/-- One wake of _scheduler_loop at target calendar date d (auto_scheduler.py
lines 93-108): with auto analysis enabled, if last_execution_date already
equals d the run is skipped and the loop sleeps 3600s before re-checking;
otherwise _run_auto_analysis fans out one task per enabled group (lines
128-137) and only after the await returns is last_execution_date set to d
(line 104).  The event list is in program order, so setLastDate comes after
every execGroup. -/
def schedulerWake (enableAuto : Bool) (enabledGroups : List String)
    (st : SchedState) (d : Nat) : SchedState × List SchedEvent :=
  if enableAuto then
    if st.lastExecutionDate = some d then
      (st, [SchedEvent.hourSleep])
    else
      (⟨some d⟩, (enabledGroups.map SchedEvent.execGroup) ++ [SchedEvent.setLastDate d])
  else (st, [])

/-- What a channel's analysis task does when run: completes, raises, or
exceeds the 1200s per-channel timeout. -/
inductive ChanBehavior where
  | completes
  | raisesExc
  | timesOut
  deriving DecidableEq

/-- The bare per-group coroutine under asyncio.wait_for, before any catching:
an error value models the raised exception / TimeoutError. -/
def rawGroupTask : ChanBehavior → Except String Unit
  | ChanBehavior.completes => Except.ok ()
  | ChanBehavior.raisesExc => Except.error "exception"
  | ChanBehavior.timesOut => Except.error "timeout"

/-- _perform_auto_analysis_for_group_with_timeout (auto_scheduler.py lines
156-164): asyncio.TimeoutError and every other Exception are caught and
logged, so the wrapped task always returns normally (None).  Result:
(what the gather join sees, log lines recorded for this channel). -/
def perGroupWithTimeout (g : String) (b : ChanBehavior) :
    Except String Unit × List String :=
  match rawGroupTask b with
  | Except.ok _ => (Except.ok (), [])
  | Except.error e => (Except.ok (), [g ++ ":" ++ e])

/-- The fan-out of _run_auto_analysis (auto_scheduler.py lines 128-151): one
task per enabled group, joined with asyncio.gather(return_exceptions=True);
results are then scanned, counting isinstance(result, Exception) as errors
and everything else as success.  Returns (gathered results, all log lines,
success_count, error_count). -/
def run_auto_analysis (chans : List (String × ChanBehavior)) :
    List (Except String Unit) × List String × Nat × Nat :=
  let tasks := chans.map (fun c => perGroupWithTimeout c.1 c.2)
  let results := tasks.map Prod.fst
  let logs := tasks.foldr (fun t acc => t.2 ++ acc) []
  let errorCount := results.countP (fun r => match r with
    | Except.error _ => true
    | Except.ok _ => false)
  let successCount := results.countP (fun r => match r with
    | Except.error _ => false
    | Except.ok _ => true)
  (results, logs, successCount, errorCount)

/-- Scan to the first ']' inclusive (the lazy tail of re.search(r"\[.*?\]",
text, re.DOTALL) after its opening bracket). -/
def takeToClose : List Char → Option (List Char)
  | [] => none
  | c :: rest =>
      if c = ']' then some [c]
      else (takeToClose rest).map (fun l => c :: l)

/-- re.search(r"\[.*?\]", text, re.DOTALL) (llm_analyzer.py line 240):
leftmost match, minimal extension — the segment from the first '[' through
the first ']' after it.  (If the first '[' has no later ']', no later '['
has one either, so this is the leftmost match exactly.) -/
def searchLazyBrackets (s : String) : Option String :=
  (go s.data).map (fun l => String.mk l)
where
  go : List Char → Option (List Char)
    | [] => none
    | c :: rest =>
        if c = '[' then (takeToClose rest).map (fun l => c :: l)
        else go rest

/-- Helper for the greedy bracket search: on the reversed character list,
drop until the first ']'. -/
def revToClose : List Char → Option (List Char)
  | [] => none
  | c :: rest => if c = ']' then some (c :: rest) else revToClose rest

/-- re.search(r"\[.*\]", text, re.DOTALL) (llm_analyzer.py lines 464 and
567): leftmost match, maximal extension — the segment from the first '['
through the last ']' of the text (when one follows it). -/
def searchGreedyBrackets (s : String) : Option String :=
  (go s.data).map (fun l => String.mk l)
where
  go : List Char → Option (List Char)
    | [] => none
    | c :: rest =>
        if c = '[' then (revToClose rest.reverse).map (fun l => c :: l.reverse)
        else go rest

/-- How the structural decode stage can fail: json.loads raising
json.JSONDecodeError, or record construction (SummaryTopic(**d) /
GoldenQuote(**d)) raising — e.g. a TypeError on unexpected fields. -/
inductive DecodeFailure where
  | jsonDecodeError
  | constructionError
  deriving DecidableEq

/-- The default topic returned by analyze_topics when JSON decoding fails and
the regex fallback extracts nothing (llm_analyzer.py lines 268-272). -/
def defaultTopic : SummaryTopic :=
  ⟨"群聊讨论", ["群友"], "今日群聊内容丰富，涵盖多个话题"⟩

/-- The response-parsing stage of LLMAnalyzer.analyze_topics (llm_analyzer.py
lines 237-274).  fixJson models _fix_json (lines 280-322) and jsonDecode
models json.loads plus the SummaryTopic constructions — both library-backed
stages are oracles here.  Control flow from the source: no bracketed segment
→ fall through to `return [], token_usage`; JSONDecodeError → regex fallback
(_extract_topics_with_regex on the raw text), and when that yields nothing
the hard-coded default topic list is returned (lines 266-272); a construction
error is not caught by `except json.JSONDecodeError` and lands in the outer
handler, which returns [] (lines 276-278). -/
def parse_topics_stage (fixJson : String → String)
    (jsonDecode : String → Except DecodeFailure (List SummaryTopic))
    (regexTopics : String → List SummaryTopic) (maxTopics : Nat)
    (txt : String) : List SummaryTopic :=
  match searchLazyBrackets txt with
  | some jsonText =>
    match jsonDecode (fixJson jsonText) with
    | Except.ok l => l.take maxTopics
    | Except.error DecodeFailure.jsonDecodeError =>
      match regexTopics txt with
      | [] => [defaultTopic]
      | t :: ts => t :: ts
    | Except.error DecodeFailure.constructionError => []
  | none => []

/-- The response-parsing stage of LLMAnalyzer.analyze_golden_quotes
(llm_analyzer.py lines 565-576): greedy bracket search, json.loads plus
GoldenQuote construction under a blanket `except Exception`, then
`return [], token_usage` — every failure degrades to []. -/
def parse_quotes_stage (jsonDecode : String → Except DecodeFailure (List GoldenQuote))
    (maxQuotes : Nat) (txt : String) : List GoldenQuote :=
  match searchGreedyBrackets txt with
  | some jsonText =>
    match jsonDecode jsonText with
    | Except.ok l => l.take maxQuotes
    | Except.error _ => []
  | none => []

/- ====================== theorems and supporting lemmas ====================== -/

/-- An element of a list together with the guarantee that it is the first
element attaining the maximal second component: everything in the list is
bounded by it and everything strictly before it is strictly below it. -/
def FirstMaxSnd (l : List (Nat × Nat)) (m : Nat × Nat) : Prop :=
  ∃ pre suf, l = pre ++ m :: suf ∧ (∀ q ∈ l, q.2 ≤ m.2) ∧ (∀ q ∈ pre, q.2 < m.2)

theorem foldMax_firstMax (xs : List (Nat × Nat)) :
    ∀ (l : List (Nat × Nat)) (cur : Nat × Nat), FirstMaxSnd l cur →
      FirstMaxSnd (l ++ xs) (xs.foldl (fun c y => if c.2 < y.2 then y else c) cur) := by
  induction xs with
  | nil => intro l cur h; simpa using h
  | cons y ys ih =>
    intro l cur h
    have step : FirstMaxSnd (l ++ [y]) (if cur.2 < y.2 then y else cur) := by
      obtain ⟨pre, suf, hdec, hall, hpre⟩ := h
      by_cases hc : cur.2 < y.2
      · refine ⟨l, [], by simp [hc], ?_, ?_⟩
        · intro q hq
          rcases List.mem_append.mp hq with hq | hq
          · exact le_of_lt (lt_of_le_of_lt (hall q hq) (by simp [hc]))
          · simp only [List.mem_singleton] at hq
            subst hq; simp [hc]
        · intro q hq
          exact lt_of_le_of_lt (hall q hq) (by simp [hc])
      · refine ⟨pre, suf ++ [y], by simp [hdec, hc], ?_, ?_⟩
        · intro q hq
          rcases List.mem_append.mp hq with hq | hq
          · simpa [hc] using hall q hq
          · simp only [List.mem_singleton] at hq
            subst hq; simpa [hc] using le_of_not_lt hc
        · intro q hq
          simpa [hc] using hpre q hq
    have := ih (l ++ [y]) (if cur.2 < y.2 then y else cur) step
    simpa [List.append_assoc] using this

theorem pyMaxSnd_firstMax (x : Nat × Nat) (xs : List (Nat × Nat)) :
    ∃ m, pyMaxSnd (x :: xs) = some m ∧ FirstMaxSnd (x :: xs) m := by
  refine ⟨xs.foldl (fun cur y => if cur.2 < y.2 then y else cur) x, by simp [pyMaxSnd], ?_⟩
  have base : FirstMaxSnd [x] x := ⟨[], [], by simp, by simp, by simp⟩
  simpa using foldMax_firstMax xs [x] x base

theorem bumpAssoc_ne_nil {α : Type} [DecidableEq α] (k : α) (l : List (α × Nat)) :
    bumpAssoc k l ≠ [] := by
  cases l with
  | nil => simp [bumpAssoc]
  | cons p rest =>
    obtain ⟨k₀, c⟩ := p
    by_cases h : k₀ = k <;> simp [bumpAssoc, h]

theorem foldl_bump_ne_nil (ms : List RawMsg) :
    ∀ acc : List (Nat × Nat), acc ≠ [] →
      ms.foldl (fun a m => bumpAssoc (hourOf m.mtime) a) acc ≠ [] := by
  induction ms with
  | nil => intro acc h; simpa using h
  | cons m rest ih =>
    intro acc _
    exact ih (bumpAssoc (hourOf m.mtime) acc) (bumpAssoc_ne_nil _ _)

theorem hourCounts_ne_nil (m : RawMsg) (rest : List RawMsg) :
    hourCounts (m :: rest) ≠ [] := by
  unfold hourCounts
  simpa using foldl_bump_ne_nil rest (bumpAssoc (hourOf m.mtime) []) (bumpAssoc_ne_nil _ _)

/-- C8 (amended): on a non-empty message list the reported most-active period
names an hour whose count bounds every hour's count, and ties are broken by
insertion order of the hour-histogram dict — the winner is the hour whose
first message occurs earliest in the scanned message order (every hour
recorded strictly earlier in the histogram has a strictly smaller count) —
not by lowest hour index. -/
theorem most_active_hour_is_first_encountered_max
    (viz : List RawMsg → ActivityVisualization) (msgs : List RawMsg)
    (h : msgs ≠ []) :
    ∃ c pre suf,
      hourCounts msgs = pre ++ (mostActiveHour msgs, c) :: suf
      ∧ (∀ q ∈ hourCounts msgs, q.2 ≤ c)
      ∧ (∀ q ∈ pre, q.2 < c)
      ∧ (calculate_statistics viz msgs).most_active_period
          = hourPeriod (mostActiveHour msgs)
      ∧ (calculate_statistics_main msgs).most_active_period
          = hourPeriod (mostActiveHour msgs) := by
  cases hm : msgs with
  | nil => exact absurd hm h
  | cons m rest =>
    cases hc : hourCounts (m :: rest) with
    | nil => exact absurd hc (hourCounts_ne_nil m rest)
    | cons x xs =>
      obtain ⟨mx, hmx, hfm⟩ := pyMaxSnd_firstMax x xs
      obtain ⟨pre, suf, hdec, hall, hpre⟩ := hfm
      have hmah : mostActiveHour (m :: rest) = mx.1 := by
        unfold mostActiveHour
        rw [hc, hmx]
      refine ⟨mx.2, pre, suf, ?_, ?_, ?_, rfl, rfl⟩
      · rw [hmah]
        simpa using hdec
      · intro q hq
        exact hall q hq
      · exact hpre

/-- C8 (counterexample to the claim as stated): two messages, the first at
hour 5 and the second at hour 3, give both hours the (tied) maximal count 1,
yet the reported period is "05:00-06:00", not the lowest tied hour's
"03:00-04:00" — Python's max keeps the first-inserted dict entry. -/
theorem most_active_hour_tie_not_lowest :
    hourCounts [⟨5 * 3600, "u1", 1, []⟩, ⟨3 * 3600, "u2", 2, []⟩]
        = [(5, 1), (3, 1)]
    ∧ (calculate_statistics_main
         [⟨5 * 3600, "u1", 1, []⟩, ⟨3 * 3600, "u2", 2, []⟩]).most_active_period
        = "05:00-06:00"
    ∧ (calculate_statistics (fun _ => ⟨()⟩)
         [⟨5 * 3600, "u1", 1, []⟩, ⟨3 * 3600, "u2", 2, []⟩]).most_active_period
        = "05:00-06:00"
    ∧ "05:00-06:00" ≠ "03:00-04:00" := by
  refine ⟨by decide, by decide, by decide, by decide⟩

/-- Witness for the amended C8 theorem at the concrete tied input. -/
theorem most_active_hour_is_first_encountered_max_witness :
    ∃ c pre suf,
      hourCounts [⟨5 * 3600, "u1", 1, []⟩, ⟨3 * 3600, "u2", 2, []⟩]
          = pre ++ (mostActiveHour [⟨5 * 3600, "u1", 1, []⟩, ⟨3 * 3600, "u2", 2, []⟩], c) :: suf
      ∧ (∀ q ∈ hourCounts [⟨5 * 3600, "u1", 1, []⟩, ⟨3 * 3600, "u2", 2, []⟩], q.2 ≤ c)
      ∧ (∀ q ∈ pre, q.2 < c)
      ∧ (calculate_statistics (fun _ => ⟨()⟩)
           [⟨5 * 3600, "u1", 1, []⟩, ⟨3 * 3600, "u2", 2, []⟩]).most_active_period
          = hourPeriod (mostActiveHour [⟨5 * 3600, "u1", 1, []⟩, ⟨3 * 3600, "u2", 2, []⟩])
      ∧ (calculate_statistics_main
           [⟨5 * 3600, "u1", 1, []⟩, ⟨3 * 3600, "u2", 2, []⟩]).most_active_period
          = hourPeriod (mostActiveHour [⟨5 * 3600, "u1", 1, []⟩, ⟨3 * 3600, "u2", 2, []⟩]) :=
  most_active_hour_is_first_encountered_max (fun _ => ⟨()⟩)
    [⟨5 * 3600, "u1", 1, []⟩, ⟨3 * 3600, "u2", 2, []⟩] (by decide)

/-- C10: on the empty message list the statistics computation returns all-zero
counters, the default period "00:00-01:00" (hour 0 when no hour has
messages), no golden quotes and a zeroed TokenUsage — in both
MessageHandler.calculate_statistics and main._calculate_statistics. -/
theorem empty_statistics_defaults (viz : List RawMsg → ActivityVisualization) :
    (calculate_statistics viz []).message_count = 0
    ∧ (calculate_statistics viz []).total_characters = 0
    ∧ (calculate_statistics viz []).participant_count = 0
    ∧ (calculate_statistics viz []).emoji_count = 0
    ∧ (calculate_statistics viz []).most_active_period = "00:00-01:00"
    ∧ (calculate_statistics viz []).golden_quotes = []
    ∧ (calculate_statistics viz []).token_usage = TokenUsage.zero
    ∧ TokenUsage.zero = ⟨0, 0, 0⟩
    ∧ calculate_statistics_main [] =
        ⟨0, 0, 0, "00:00-01:00", [], 0, TokenUsage.zero⟩ := by
  exact ⟨rfl, rfl, rfl, rfl,
    (by decide : hourPeriod (mostActiveHour []) = "00:00-01:00"), rfl, rfl, rfl,
    by decide⟩

theorem mem_finalCleanup {startT endT : Int} {maxM : Nat} {l : List RawMsg}
    {m : RawMsg} (h : m ∈ finalCleanup startT endT maxM l) :
    startT ≤ m.mtime ∧ m.mtime ≤ endT := by
  unfold finalCleanup at h
  dsimp only at h
  split at h
  · have hmem := List.take_subset maxM _ h
    have := (List.mem_filter.mp hmem).2
    simpa using this
  · have := (List.mem_filter.mp h).2
    simpa using this

theorem length_finalCleanup (startT endT : Int) (maxM : Nat) (l : List RawMsg) :
    (finalCleanup startT endT maxM l).length ≤ maxM := by
  unfold finalCleanup
  dsimp only
  split
  · simp
  · omega

/-- C1: every message list returned by fetch_group_messages satisfies the
window invariant — each returned message's timestamp lies in
[now - days, now] with both bounds fixed at call entry — and its length is
at most max_messages, thanks to the final strict re-filter and truncation. -/
theorem fetch_window_invariant (api : Nat → ApiResp) (hasCA pv : Bool)
    (now : Int) (days : Nat) (filt : String → Bool) (maxR maxM : Nat) :
    (∀ m ∈ (fetch_group_messages api hasCA pv now days filt maxR maxM).1,
        now - 86400 * (days : Int) ≤ m.mtime ∧ m.mtime ≤ now)
    ∧ (fetch_group_messages api hasCA pv now days filt maxR maxM).1.length ≤ maxM := by
  unfold fetch_group_messages
  cases pv with
  | false => simp
  | true =>
    simp only [if_true]
    cases hr : (fetchGo api hasCA (now - 86400 * (days : Int)) now filt maxR maxM
                  (fetchFuel maxR) ⟨[], 0, 0, 0, 0, []⟩).2 with
    | true => simp [hr]
    | false =>
      simp only [hr, Bool.false_eq_true, if_false]
      exact ⟨fun m hm => mem_finalCleanup hm, length_finalCleanup _ _ _ _⟩

/-- Witness for C1 at a concrete run: one page with an in-window and an
out-of-window message, then exhausted history. -/
theorem fetch_window_invariant_witness :
    (∀ m ∈ (fetch_group_messages
              (fun n => if n = 0
                then ApiResp.page [⟨100, "a", 10, []⟩, ⟨50, "b", 11, []⟩]
                else ApiResp.page [])
              true true 86400 1 (fun _ => false) 10 1000).1,
        (86400 : Int) - 86400 * ((1 : Nat) : Int) ≤ m.mtime ∧ m.mtime ≤ 86400)
    ∧ (fetch_group_messages
         (fun n => if n = 0
           then ApiResp.page [⟨100, "a", 10, []⟩, ⟨50, "b", 11, []⟩]
           else ApiResp.page [])
         true true 86400 1 (fun _ => false) 10 1000).1.length ≤ 1000 :=
  fetch_window_invariant
    (fun n => if n = 0
      then ApiResp.page [⟨100, "a", 10, []⟩, ⟨50, "b", 11, []⟩]
      else ApiResp.page [])
    true true 86400 1 (fun _ => false) 10 1000

/-- C9: when the very first history-page API call raises, fetch_group_messages
returns [] at once — the trace holds exactly that one API call, with no sleep
events, and consecutive_failures is still 0 (the budget of 3 untouched). -/
theorem first_round_api_error_returns_empty (api : Nat → ApiResp)
    (now : Int) (days : Nat) (filt : String → Bool) (maxR maxM : Nat)
    (hapi : api 0 = ApiResp.raises) (hmr : 0 < maxR) :
    (fetch_group_messages api true true now days filt maxR maxM).1 = []
    ∧ (fetch_group_messages api true true now days filt maxR maxM).2.events
        = [FetchEvent.apiCall 0]
    ∧ (fetch_group_messages api true true now days filt maxR maxM).2.fails = 0 := by
  have hstep :
      fetchGo api true (now - 86400 * (days : Int)) now filt maxR maxM
          (fetchFuel maxR) ⟨[], 0, 0, 0, 0, []⟩
        = (⟨[], 0, 0, 0, 1, [FetchEvent.apiCall 0]⟩, true) := by
    have hfuel : fetchFuel maxR = (maxR * maxFailures + maxR + maxFailures) + 1 := rfl
    rw [hfuel, fetchGo]
    simp [hmr, hapi]
  unfold fetch_group_messages
  simp [hstep]

/-- Witness for C9: the concrete always-raising API. -/
theorem first_round_api_error_returns_empty_witness :
    (fetch_group_messages (fun _ => ApiResp.raises) true true 86400 1
        (fun _ => false) 10 1000).1 = []
    ∧ (fetch_group_messages (fun _ => ApiResp.raises) true true 86400 1
        (fun _ => false) 10 1000).2.events = [FetchEvent.apiCall 0]
    ∧ (fetch_group_messages (fun _ => ApiResp.raises) true true 86400 1
        (fun _ => false) 10 1000).2.fails = 0 :=
  first_round_api_error_returns_empty (fun _ => ApiResp.raises) 86400 1
    (fun _ => false) 10 1000 rfl (by decide)

theorem pageScan_oor_of_mem (startT endT : Int) (filt : String → Bool) :
    ∀ l : List RawMsg, (∃ m ∈ l, m.mtime < startT) →
      (pageScan startT endT filt l).2.2 = true := by
  intro l
  induction l with
  | nil => intro h; simp at h
  | cons m rest ih =>
    intro h
    obtain ⟨m0, hm0, hlt⟩ := h
    by_cases hold : m.mtime < startT
    · simp [pageScan, hold]
    · have hm0r : m0 ∈ rest := by
        rcases List.mem_cons.mp hm0 with hh | hh
        · subst hh; exact absurd hlt hold
        · exact hh
      have htail := ih ⟨m0, hm0r, hlt⟩
      by_cases hfilt : filt m.senderId
      · simpa [pageScan, hold, hfilt] using htail
      · by_cases hwin : startT ≤ m.mtime ∧ m.mtime ≤ endT
        · simpa [pageScan, hold, hfilt, hwin] using htail
        · simpa [pageScan, hold, hfilt, hwin] using htail

theorem fetchGo_oor_halt (api : Nat → ApiResp) (hca : Bool) (startT endT : Int)
    (filt : String → Bool) (mR mM : Nat) :
    ∀ (fuel : Nat) (st : FetchState) (k : Nat) (ms : List RawMsg),
      st.calls ≤ k →
      k < ((fetchGo api hca startT endT filt mR mM fuel st).1).calls →
      api k = ApiResp.page ms →
      (∃ m ∈ ms, m.mtime < startT) →
      ((fetchGo api hca startT endT filt mR mM fuel st).1).calls = k + 1
      ∧ ∀ m ∈ (pageScan startT endT filt ms).1,
          m ∈ ((fetchGo api hca startT endT filt mR mM fuel st).1).msgs := by
  intro fuel
  induction fuel with
  | zero =>
    intro st k ms hle hlt _ _
    rw [fetchGo] at hlt
    simp at hlt
    omega
  | succ fuel ih =>
    intro st k ms hle hlt hapi hex
    by_cases hr : st.rounds < mR
    · rcases Bool.eq_false_or_eq_true hca with hcaT | hcaF
      rotate_left
      · subst hcaF
        rw [fetchGo] at hlt
        simp [hr] at hlt
        omega
      · subst hcaT
        rw [fetchGo] at hlt ⊢
        simp only [if_pos hr, if_true] at hlt ⊢
        revert hlt
        cases hresp : api st.calls with
        | raises =>
          intro hlt
          rcases Nat.lt_or_ge st.calls k with hk | hk
          · by_cases h0 : st.rounds = 0
            · simp [h0] at hlt
              omega
            · by_cases hf : st.fails + 1 ≥ maxFailures
              · simp [h0, hf] at hlt
                omega
              · simp only [if_neg h0, if_neg hf] at hlt ⊢
                exact ih _ k ms (by exact hk) hlt hapi hex
          · have hkk : k = st.calls := by omega
            rw [hkk] at hapi
            rw [hapi] at hresp
            simp at hresp
        | invalid =>
          intro hlt
          rcases Nat.lt_or_ge st.calls k with hk | hk
          · by_cases hf : st.fails + 1 ≥ maxFailures
            · simp [hf] at hlt
              omega
            · simp only [if_neg hf] at hlt ⊢
              exact ih _ k ms (by exact hk) hlt hapi hex
          · have hkk : k = st.calls := by omega
            rw [hkk] at hapi
            rw [hapi] at hresp
            simp at hresp
        | page pms =>
          cases pms with
          | nil =>
            intro hlt
            rcases Nat.lt_or_ge st.calls k with hk | hk
            · simp at hlt
              omega
            · have hkk : k = st.calls := by omega
              rw [hkk] at hapi
              rw [hapi] at hresp
              have hms : ms = [] := by
                cases hresp
                rfl
              subst hms
              simp at hex
          | cons first restp =>
            intro hlt
            by_cases hoor : (pageScan startT endT filt (first :: restp)).2.2 = true
            · rcases Nat.lt_or_ge st.calls k with hk | hk
              · simp [hoor] at hlt
                omega
              · have hkk : k = st.calls := by omega
                rw [hkk] at hapi
                rw [hapi] at hresp
                have hms : ms = first :: restp := by
                  cases hresp
                  rfl
                subst hms
                simp only [if_pos hoor]
                constructor
                · simp [hkk]
                · intro m hm
                  simp [List.mem_append]
                  exact Or.inr hm
            · rcases Nat.lt_or_ge st.calls k with hk | hk
              · by_cases hcnt : (pageScan startT endT filt (first :: restp)).2.1 = 0
                · simp [hoor, hcnt] at hlt
                  omega
                · by_cases hmax : mM ≤ st.msgs.length
                      + (pageScan startT endT filt (first :: restp)).1.length
                  · simp [hoor, hcnt, hmax] at hlt
                    omega
                  · simp only [if_neg hoor, if_neg hcnt] at hlt ⊢
                    rw [if_neg (by simpa using hmax)] at hlt
                    rw [if_neg (by simpa using hmax)]
                    exact ih _ k ms (by exact hk) hlt hapi hex
              · have hkk : k = st.calls := by omega
                rw [hkk] at hapi
                rw [hapi] at hresp
                have hms : ms = first :: restp := by
                  cases hresp
                  rfl
                subst hms
                exact absurd (pageScan_oor_of_mem startT endT filt (first :: restp) hex) hoor
    · rw [fetchGo] at hlt
      simp [hr] at hlt
      omega

/-- C2: in MessageHandler.fetch_group_messages, any page containing a message
strictly older than the window start halts pagination — that API call is the
last one made — while the page's own in-window, non-bot messages are still
retained in the accumulator.  The legacy main._fetch_group_messages_unified
violates this: on a round-0 page whose first message is too old but whose
last-iterated message is in-window (oldest_msg_time being overwritten by
every message), it issues a second API call instead of stopping. -/
theorem oor_page_halts_pagination (api : Nat → ApiResp) (hca pv : Bool)
    (now : Int) (days : Nat) (filt : String → Bool) (maxR maxM : Nat) :
    (∀ k ms,
        k < (fetch_group_messages api hca pv now days filt maxR maxM).2.calls →
        api k = ApiResp.page ms →
        (∃ m ∈ ms, m.mtime < now - 86400 * (days : Int)) →
        (fetch_group_messages api hca pv now days filt maxR maxM).2.calls = k + 1
        ∧ ∀ m ∈ (pageScan (now - 86400 * (days : Int)) now filt ms).1,
            m ∈ (fetch_group_messages api hca pv now days filt maxR maxM).2.msgs)
    ∧ (∃ m ∈ [(⟨-5, "a", 10, []⟩ : RawMsg), ⟨10, "b", 11, []⟩],
         m.mtime < (86400 : Int) - 86400 * ((1 : Nat) : Int))
    ∧ (fetch_group_messages_unified
         (fun n => if n = 0
           then ApiResp.page [⟨-5, "a", 10, []⟩, ⟨10, "b", 11, []⟩]
           else ApiResp.page [])
         true 86400 1 none 10 1000).2.calls = 2 := by
  refine ⟨?_, ?_, ?_⟩
  · intro k ms hlt hapi hex
    unfold fetch_group_messages at hlt ⊢
    cases pv with
    | false =>
      simp at hlt
    | true =>
      simp only [if_true] at hlt ⊢
      cases hflag : (fetchGo api hca (now - 86400 * (days : Int)) now filt maxR maxM
                       (fetchFuel maxR) ⟨[], 0, 0, 0, 0, []⟩).2 with
      | true =>
        simp only [hflag, if_true] at hlt ⊢
        exact fetchGo_oor_halt api hca (now - 86400 * (days : Int)) now filt maxR maxM
          (fetchFuel maxR) ⟨[], 0, 0, 0, 0, []⟩ k ms (Nat.zero_le k) hlt hapi hex
      | false =>
        simp only [hflag, Bool.false_eq_true, if_false] at hlt ⊢
        exact fetchGo_oor_halt api hca (now - 86400 * (days : Int)) now filt maxR maxM
          (fetchFuel maxR) ⟨[], 0, 0, 0, 0, []⟩ k ms (Nat.zero_le k) hlt hapi hex
  · decide
  · decide

/-- Witness for C2 at a concrete run of the handler fetcher: the round-0 page
holds one too-old and one in-window message; exactly one API call is made and
the in-window message is retained. -/
theorem oor_page_halts_pagination_witness :
    (fetch_group_messages
        (fun n => if n = 0
          then ApiResp.page [⟨-5, "a", 10, []⟩, ⟨10, "b", 11, []⟩]
          else ApiResp.page [])
        true true 86400 1 (fun _ => false) 10 1000).2.calls = 0 + 1
    ∧ ∀ m ∈ (pageScan ((86400 : Int) - 86400 * ((1 : Nat) : Int)) 86400 (fun _ => false)
               [⟨-5, "a", 10, []⟩, ⟨10, "b", 11, []⟩]).1,
        m ∈ (fetch_group_messages
               (fun n => if n = 0
                 then ApiResp.page [⟨-5, "a", 10, []⟩, ⟨10, "b", 11, []⟩]
                 else ApiResp.page [])
               true true 86400 1 (fun _ => false) 10 1000).2.msgs :=
  (oor_page_halts_pagination
      (fun n => if n = 0
        then ApiResp.page [⟨-5, "a", 10, []⟩, ⟨10, "b", 11, []⟩]
        else ApiResp.page [])
      true true 86400 1 (fun _ => false) 10 1000).1
    0 [⟨-5, "a", 10, []⟩, ⟨10, "b", 11, []⟩] (by decide) rfl (by decide)

theorem retryAux_all_fail (R : Type) (providerAt : Nat → Option Unit)
    (promptOk : Bool) (attemptOf : Nat → AttemptResult R) (retries : Nat)
    (backoff : ℚ) (hp : ∀ k, providerAt k = some ()) (hq : promptOk = true) :
    ∀ (left attempt : Nat), attempt + left = retries + 1 → 1 ≤ attempt →
      (∀ k, attempt ≤ k → k ≤ retries → (attemptOf k).isFail = true) →
      retryAux R providerAt promptOk attemptOf retries backoff left attempt
        = (none, (List.range' attempt (left - 1)).map (fun k : Nat => backoff * (k : ℚ))) := by
  intro left
  induction left with
  | zero =>
    intro attempt _ _ _
    simp [retryAux]
  | succ left ih =>
    intro attempt hsum h1 hfail
    have hatle : attempt ≤ retries := by omega
    have hfa := hfail attempt (le_refl attempt) hatle
    rw [retryAux, hp attempt, hq]
    simp only [if_true]
    cases hcase : attemptOf attempt with
    | ok r => rw [hcase] at hfa; simp [AttemptResult.isFail] at hfa
    | timeoutErr =>
      by_cases hlt : attempt < retries
      · have hrec := ih (attempt + 1) (by omega) (by omega)
          (fun k hk1 hk2 => hfail k (by omega) hk2)
        rw [hq] at hrec
        have hrange : List.range' attempt (left + 1 - 1)
            = attempt :: List.range' (attempt + 1) (left - 1) := by
          have h2 : left + 1 - 1 = (left - 1) + 1 := by omega
          rw [h2, List.range'_succ]
        rw [if_pos hlt, hrec, hrange, List.map_cons]
      · have hz : left = 0 := by omega
        simp [hlt, hz]
    | exceptionErr =>
      by_cases hlt : attempt < retries
      · have hrec := ih (attempt + 1) (by omega) (by omega)
          (fun k hk1 hk2 => hfail k (by omega) hk2)
        rw [hq] at hrec
        have hrange : List.range' attempt (left + 1 - 1)
            = attempt :: List.range' (attempt + 1) (left - 1) := by
          have h2 : left + 1 - 1 = (left - 1) + 1 := by omega
          rw [h2, List.range'_succ]
        rw [if_pos hlt, hrec, hrange, List.map_cons]
      · have hz : left = 0 := by omega
        simp [hlt, hz]

theorem retryAux_succeeds (R : Type) (providerAt : Nat → Option Unit)
    (promptOk : Bool) (attemptOf : Nat → AttemptResult R) (retries : Nat)
    (backoff : ℚ) (r : R) (s : Nat)
    (hp : ∀ k, providerAt k = some ()) (hq : promptOk = true)
    (hsr : s ≤ retries) (hok : attemptOf s = AttemptResult.ok r) :
    ∀ (left attempt : Nat), attempt + left = retries + 1 → 1 ≤ attempt →
      attempt ≤ s →
      (∀ k, attempt ≤ k → k < s → (attemptOf k).isFail = true) →
      retryAux R providerAt promptOk attemptOf retries backoff left attempt
        = (some r, (List.range' attempt (s - attempt)).map (fun k : Nat => backoff * (k : ℚ))) := by
  intro left
  induction left with
  | zero =>
    intro attempt hsum _ has _
    omega
  | succ left ih =>
    intro attempt hsum h1 has hfail
    rw [retryAux, hp attempt, hq]
    simp only [if_true]
    by_cases heq : attempt = s
    · subst heq
      rw [hok]
      simp
    · have hlt : attempt < s := by omega
      have hfa := hfail attempt (le_refl attempt) hlt
      have haltr : attempt < retries := by omega
      cases hcase : attemptOf attempt with
      | ok r0 => rw [hcase] at hfa; simp [AttemptResult.isFail] at hfa
      | timeoutErr =>
        have hrec := ih (attempt + 1) (by omega) (by omega) (by omega)
          (fun k hk1 hk2 => hfail k (by omega) hk2)
        rw [hq] at hrec
        have hrange : List.range' attempt (s - attempt)
            = attempt :: List.range' (attempt + 1) (s - (attempt + 1)) := by
          have h2 : s - attempt = (s - (attempt + 1)) + 1 := by omega
          rw [h2, List.range'_succ]
        rw [if_pos haltr, hrec, hrange, List.map_cons]
      | exceptionErr =>
        have hrec := ih (attempt + 1) (by omega) (by omega) (by omega)
          (fun k hk1 hk2 => hfail k (by omega) hk2)
        rw [hq] at hrec
        have hrange : List.range' attempt (s - attempt)
            = attempt :: List.range' (attempt + 1) (s - (attempt + 1)) := by
          have h2 : s - attempt = (s - (attempt + 1)) + 1 := by omega
          rw [h2, List.range'_succ]
        rw [if_pos haltr, hrec, hrange, List.map_cons]

/-- C3: the LLM retry wrapper.  With a resolvable provider and a non-empty
prompt: a call failing (timeout or exception) on attempts 1..retries-1 and
succeeding on attempt `retries` yields the successful response; failing on
all `retries` attempts yields the None sentinel (the loop catches every
failure, so nothing escapes); in both runs the sleep between failed attempt k
and attempt k+1 is backoff * k. -/
theorem retry_success_boundary (R : Type) (providerAt : Nat → Option Unit)
    (promptOk : Bool) (attemptOf : Nat → AttemptResult R) (retries : Nat)
    (backoff : ℚ) (r : R)
    (hp : ∀ k, providerAt k = some ()) (hq : promptOk = true)
    (hr1 : 1 ≤ retries) :
    ((∀ k, 1 ≤ k → k < retries → (attemptOf k).isFail = true) →
       attemptOf retries = AttemptResult.ok r →
       call_provider_with_retry R providerAt promptOk attemptOf retries backoff
         = (some r, (List.range' 1 (retries - 1)).map (fun k : Nat => backoff * (k : ℚ))))
    ∧ ((∀ k, 1 ≤ k → k ≤ retries → (attemptOf k).isFail = true) →
       call_provider_with_retry R providerAt promptOk attemptOf retries backoff
         = (none, (List.range' 1 (retries - 1)).map (fun k : Nat => backoff * (k : ℚ)))) := by
  constructor
  · intro hfail hok
    unfold call_provider_with_retry
    have := retryAux_succeeds R providerAt promptOk attemptOf retries backoff r retries
      hp hq (le_refl retries) hok retries 1 (by omega) (le_refl 1) hr1
      (fun k hk1 hk2 => hfail k hk1 hk2)
    simpa using this
  · intro hfail
    unfold call_provider_with_retry
    have := retryAux_all_fail R providerAt promptOk attemptOf retries backoff hp hq
      retries 1 (by omega) (le_refl 1) (fun k hk1 hk2 => hfail k hk1 hk2)
    simpa using this

/-- Witness for C3: retries = 3, backoff = 2; two timeouts then success
yields the response with sleeps 2*1 and 2*2; three failures yield None. -/
theorem retry_success_boundary_witness :
    call_provider_with_retry Nat (fun _ => some ()) true
        (fun a => if a < 3 then AttemptResult.timeoutErr else AttemptResult.ok 7) 3 2
      = (some 7, (List.range' 1 (3 - 1)).map (fun k : Nat => (2 : ℚ) * (k : ℚ)))
    ∧ call_provider_with_retry Nat (fun _ => some ()) true
        (fun _ => AttemptResult.exceptionErr) 3 2
      = (none, (List.range' 1 (3 - 1)).map (fun k : Nat => (2 : ℚ) * (k : ℚ))) :=
  ⟨(retry_success_boundary Nat (fun _ => some ()) true
      (fun a => if a < 3 then AttemptResult.timeoutErr else AttemptResult.ok 7) 3 2 7
      (fun _ => rfl) rfl (by decide)).1
      (fun k _ h2 => by rw [if_pos h2]; rfl) rfl,
   (retry_success_boundary Nat (fun _ => some ()) true
      (fun _ => AttemptResult.exceptionErr) 3 2 7
      (fun _ => rfl) rfl (by decide)).2
      (fun _ _ _ => rfl)⟩

/-- C6: provider resolution tries exactly the four tiers in order — the
task-specific configured id, the global default id, the session provider,
the first registered provider — returning the first tier that resolves
(equal to the spec's ordered-fallback over the four tier results); it is None
exactly when all four tiers fail, and when both the task-specific and global
default ids resolve, the task-specific provider is returned. -/
theorem provider_fallback_order (P : Type) (specificId mainId : Option String)
    (byId : String → Option P) (sessionP : Option P) (allP : List P) :
    get_provider_with_fallback P specificId mainId byId sessionP allP
        = specOrderedFallback P
            [resolveConfigured P specificId byId, resolveConfigured P mainId byId,
             sessionP, allP.head?]
    ∧ (get_provider_with_fallback P specificId mainId byId sessionP allP = none
        ↔ resolveConfigured P specificId byId = none
          ∧ resolveConfigured P mainId byId = none ∧ sessionP = none ∧ allP = [])
    ∧ (∀ p q, resolveConfigured P specificId byId = some p →
        resolveConfigured P mainId byId = some q →
        get_provider_with_fallback P specificId mainId byId sessionP allP = some p) := by
  unfold get_provider_with_fallback specOrderedFallback
  cases h1 : resolveConfigured P specificId byId with
  | some p =>
    simp [h1]
    exact fun _ _ h _ => h
  | none =>
    cases h2 : resolveConfigured P mainId byId with
    | some p => simp [h1, h2, specOrderedFallback]
    | none =>
      cases h3 : sessionP with
      | some p => simp [specOrderedFallback]
      | none =>
        cases allP with
        | nil => simp [specOrderedFallback]
        | cons p rest => simp [specOrderedFallback]

/-- Witness for C6 (the ∀-parts of the conjunction applied concretely): with
the task-specific id resolving to "tp" and the global default to "gp", the
task-specific provider is chosen. -/
theorem provider_fallback_order_witness :
    get_provider_with_fallback String (some "tid") (some "gid")
        (fun s => if s = "tid" then some "tp" else if s = "gid" then some "gp" else none)
        none [] = some "tp" :=
  (provider_fallback_order String (some "tid") (some "gid")
      (fun s => if s = "tid" then some "tp" else if s = "gid" then some "gp" else none)
      none []).2.2 "tp" "gp" (by decide) (by decide)

/-- C5: waking the scheduler twice for the same calendar date runs each
enabled channel's analysis exactly once.  The first wake (last_execution_date
not yet equal to d) fans out one execution per enabled group and only then —
as the final event of the wake — assigns last_execution_date := d; the second
wake sees last_execution_date = d, executes nothing and re-checks after the
fixed 1-hour sleep. -/
theorem scheduler_executes_once_per_date (groups : List String) (st : SchedState)
    (d : Nat) (h : st.lastExecutionDate ≠ some d) :
    ((schedulerWake true groups st d).1).lastExecutionDate = some d
    ∧ (schedulerWake true groups st d).2
        = (groups.map SchedEvent.execGroup) ++ [SchedEvent.setLastDate d]
    ∧ (schedulerWake true groups ((schedulerWake true groups st d).1) d).2
        = [SchedEvent.hourSleep]
    ∧ (∀ g, ((schedulerWake true groups st d).2
          ++ (schedulerWake true groups ((schedulerWake true groups st d).1) d).2).count
            (SchedEvent.execGroup g)
          = groups.count g) := by
  have h1 : schedulerWake true groups st d
      = (⟨some d⟩, (groups.map SchedEvent.execGroup) ++ [SchedEvent.setLastDate d]) := by
    unfold schedulerWake
    simp [h]
  have h2 : schedulerWake true groups
      (⟨some d⟩ : SchedState) d = (⟨some d⟩, [SchedEvent.hourSleep]) := by
    unfold schedulerWake
    simp
  refine ⟨by rw [h1], by rw [h1], by rw [h1, h2], ?_⟩
  intro g
  rw [h1, h2]
  have hinj : Function.Injective SchedEvent.execGroup := by
    intro a b hab
    cases hab
    rfl
  simp [List.count_append, List.count_map_of_injective groups SchedEvent.execGroup hinj,
    List.count_singleton, List.count_cons]

/-- Witness for C5: two groups, a fresh state, date 7. -/
theorem scheduler_executes_once_per_date_witness :
    ((schedulerWake true ["g1", "g2"] ⟨none⟩ 7).1).lastExecutionDate = some 7
    ∧ (schedulerWake true ["g1", "g2"] ⟨none⟩ 7).2
        = (["g1", "g2"].map SchedEvent.execGroup) ++ [SchedEvent.setLastDate 7]
    ∧ (schedulerWake true ["g1", "g2"] ((schedulerWake true ["g1", "g2"] ⟨none⟩ 7).1) 7).2
        = [SchedEvent.hourSleep]
    ∧ (∀ g, ((schedulerWake true ["g1", "g2"] ⟨none⟩ 7).2
          ++ (schedulerWake true ["g1", "g2"]
                ((schedulerWake true ["g1", "g2"] ⟨none⟩ 7).1) 7).2).count
            (SchedEvent.execGroup g)
          = ["g1", "g2"].count g) :=
  scheduler_executes_once_per_date ["g1", "g2"] ⟨none⟩ 7 (by decide)

/-- C7: fan-out isolation.  Every channel task is joined (one gathered result
per channel); no exception reaches the gather join — each per-channel wrapper
catches its own timeout/exception, so every gathered entry is a normal
return; a raising channel leaves its error in that channel's log and a
timing-out channel its timeout log; the error counter stays 0 and every
channel is counted successful; and a channel's gathered result depends only
on that channel's own entry, never on the other channels. -/
theorem fanout_isolation (chans : List (String × ChanBehavior)) :
    (run_auto_analysis chans).1.length = chans.length
    ∧ (∀ r ∈ (run_auto_analysis chans).1, r = Except.ok ())
    ∧ (run_auto_analysis chans).2.2.1 = chans.length
    ∧ (run_auto_analysis chans).2.2.2 = 0
    ∧ (∀ g, (g, ChanBehavior.raisesExc) ∈ chans →
        (g ++ ":" ++ "exception") ∈ (run_auto_analysis chans).2.1)
    ∧ (∀ g, (g, ChanBehavior.timesOut) ∈ chans →
        (g ++ ":" ++ "timeout") ∈ (run_auto_analysis chans).2.1)
    ∧ (∀ (chans2 : List (String × ChanBehavior)) (i : Nat),
        chans.get? i = chans2.get? i →
        (run_auto_analysis chans).1.get? i = (run_auto_analysis chans2).1.get? i) := by
  refine ⟨by simp [run_auto_analysis], ?_, ?_, ?_, ?_, ?_, ?_⟩
  · intro r hr
    simp only [run_auto_analysis, List.map_map, List.mem_map] at hr
    obtain ⟨c, _, rfl⟩ := hr
    obtain ⟨g, b⟩ := c
    cases b <;> rfl
  · simp only [run_auto_analysis, List.map_map, List.countP_map]
    rw [List.countP_eq_length]
    intro c _
    obtain ⟨g, b⟩ := c
    cases b <;> rfl
  · simp only [run_auto_analysis, List.map_map, List.countP_map]
    rw [List.countP_eq_zero]
    intro c _
    obtain ⟨g, b⟩ := c
    cases b <;> simp [perGroupWithTimeout, rawGroupTask]
  · intro g hg
    induction chans with
    | nil => simp at hg
    | cons c rest ih =>
      rcases List.mem_cons.mp hg with hh | hh
      · subst hh
        simp [run_auto_analysis, perGroupWithTimeout, rawGroupTask]
      · have := ih hh
        simp only [run_auto_analysis, List.map_cons, List.foldr_cons] at this ⊢
        exact List.mem_append.mpr (Or.inr this)
  · intro g hg
    induction chans with
    | nil => simp at hg
    | cons c rest ih =>
      rcases List.mem_cons.mp hg with hh | hh
      · subst hh
        simp [run_auto_analysis, perGroupWithTimeout, rawGroupTask]
      · have := ih hh
        simp only [run_auto_analysis, List.map_cons, List.foldr_cons] at this ⊢
        exact List.mem_append.mpr (Or.inr this)
  · intro chans2 i hi
    simp only [List.get?_eq_getElem?] at hi
    simp only [run_auto_analysis, List.map_map, List.get?_eq_getElem?,
      List.getElem?_map, hi]

/-- Witness for C7: three channels — one completes, one raises, one times
out; all are joined, both failures are logged, all reported successful. -/
theorem fanout_isolation_witness :
    (run_auto_analysis [("a", ChanBehavior.completes), ("b", ChanBehavior.raisesExc),
        ("c", ChanBehavior.timesOut)]).1.length = 3
    ∧ ("b" ++ ":" ++ "exception")
        ∈ (run_auto_analysis [("a", ChanBehavior.completes), ("b", ChanBehavior.raisesExc),
            ("c", ChanBehavior.timesOut)]).2.1
    ∧ ("c" ++ ":" ++ "timeout")
        ∈ (run_auto_analysis [("a", ChanBehavior.completes), ("b", ChanBehavior.raisesExc),
            ("c", ChanBehavior.timesOut)]).2.1
    ∧ (run_auto_analysis [("a", ChanBehavior.completes), ("b", ChanBehavior.raisesExc),
        ("c", ChanBehavior.timesOut)]).2.2.1 = 3 := by
  have h := fanout_isolation [("a", ChanBehavior.completes), ("b", ChanBehavior.raisesExc),
    ("c", ChanBehavior.timesOut)]
  exact ⟨h.1, h.2.2.2.2.1 "b" (by decide), h.2.2.2.2.2.1 "c" (by decide), h.2.2.1⟩

/-- C4 (counterexample to the claim as stated): for the garbage response
"[\x7bbroken]", json.loads raises (modelled by the failing decode oracle) and
the regex fallback extracts nothing, yet analyze_topics' parsing stage
returns the hard-coded default topic list — not the empty list. -/
theorem topics_parse_garbage_not_empty :
    parse_topics_stage (fun s => s)
        (fun _ => Except.error DecodeFailure.jsonDecodeError) (fun _ => []) 5
        "[\x7bbroken]"
      = [defaultTopic]
    ∧ [defaultTopic] ≠ ([] : List SummaryTopic) := by
  refine ⟨by decide, by decide⟩

/-- C4 (amended): when the structural JSON decode stage fails with a decode
error and the regex fallback extracts no records, analyze_golden_quotes'
parsing stage returns [] (as does analyze_topics' when the response holds no
bracketed segment at all), but analyze_topics' parsing stage returns the
one-element hard-coded default topic list whenever a bracketed segment is
present; neither stage raises — every failure is caught. -/
theorem parse_decode_failure_fallback (fixJson : String → String)
    (decT : String → Except DecodeFailure (List SummaryTopic))
    (regexT : String → List SummaryTopic)
    (decQ : String → Except DecodeFailure (List GoldenQuote))
    (maxT maxQ : Nat) (txt : String)
    (hdT : ∀ s, decT s = Except.error DecodeFailure.jsonDecodeError)
    (hdQ : ∀ s, ∃ e, decQ s = Except.error e)
    (hreg : regexT txt = []) :
    parse_quotes_stage decQ maxQ txt = []
    ∧ parse_topics_stage fixJson decT regexT maxT txt
        = (match searchLazyBrackets txt with
           | none => []
           | some _ => [defaultTopic]) := by
  constructor
  · unfold parse_quotes_stage
    cases hs : searchGreedyBrackets txt with
    | none => rfl
    | some jt =>
      obtain ⟨e, he⟩ := hdQ jt
      dsimp only
      rw [he]
  · unfold parse_topics_stage
    cases hs : searchLazyBrackets txt with
    | none => rfl
    | some jt =>
      dsimp only
      rw [hdT (fixJson jt), hreg]

/-- Witness for the amended C4 theorem at the concrete garbage input. -/
theorem parse_decode_failure_fallback_witness :
    parse_quotes_stage (fun _ => Except.error DecodeFailure.jsonDecodeError) 5 "[\x7bbroken]"
      = []
    ∧ parse_topics_stage (fun s => s)
        (fun _ => Except.error DecodeFailure.jsonDecodeError) (fun _ => []) 5 "[\x7bbroken]"
        = (match searchLazyBrackets "[\x7bbroken]" with
           | none => []
           | some _ => [defaultTopic]) :=
  parse_decode_failure_fallback (fun s => s)
    (fun _ => Except.error DecodeFailure.jsonDecodeError) (fun _ => [])
    (fun _ => Except.error DecodeFailure.jsonDecodeError) 5 5 "[\x7bbroken]"
    (fun _ => rfl) (fun _ => ⟨DecodeFailure.jsonDecodeError, rfl⟩) rfl
